import Mathlib

/-!
Verification development for the inventory HTTP service (`src/index.js`).

The service keeps an in-memory `db.items` array, persists it as a JSON
document on every mutation (`saveDb`), and stores uploaded photos as files
in a photos directory.  We embed the data model and every route handler as
pure Lean functions over an explicit `ServerState`, and the Express routing
table (including the `allowMethods` middleware and the 404 fallback) as a
`dispatch` function.
-/

namespace Inventory

/-- Bytes of a file, modelled as a list of byte values. -/
abbrev Bytes := List Nat

/-- JavaScript truthiness of an optional string field: `undefined`/absent and
the empty string are falsy, every other string is truthy. -/
def strTruthy : Option String → Bool
  | none => false
  | some s => !s.isEmpty

/-- One inventory item, as stored in `db.items` (source lines 120-126):
fields `id`, `name`, `description`, `photo` and the internal
`storedFileName`. -/
structure Item where
  id : String
  name : String
  description : String
  photo : Option String
  storedFileName : Option String
deriving Repr, DecidableEq

/-- JSON values, used both for response bodies and for the persisted
document.  Numbers keep their source lexeme (no claim depends on numeric
value). -/
inductive JVal where
  | jnull : JVal
  | jbool : Bool → JVal
  | jnum : String → JVal
  | jstr : String → JVal
  | jarr : List JVal → JVal
  | jobj : List (String × JVal) → JVal

/-- Top-level keys of a JSON object (in order); `[]` for non-objects. -/
def JVal.keys : JVal → List String
  | .jobj fs => fs.map Prod.fst
  | _ => []

/-- Lookup of a top-level key in a JSON object. -/
def JVal.lookup (k : String) : JVal → Option JVal
  | .jobj fs => (fs.find? (fun f => f.1 = k)).map Prod.snd
  | _ => none

/-- The photos directory: an association of file names to file bytes. -/
abbrev PhotoDir := List (String × Bytes)

/-- Whether a file of the given name exists in the directory
(`fs.existsSync`). -/
def existsFile (dir : PhotoDir) (fname : String) : Bool :=
  (dir.find? (fun f => f.1 = fname)).isSome

/-- Contents of the named file, when present (`fs.createReadStream` /
`fs.readFileSync`). -/
def readFile (dir : PhotoDir) (fname : String) : Option Bytes :=
  (dir.find? (fun f => f.1 = fname)).map Prod.snd

/-- Writing a file (`fs.writeFileSync` via multer): overwrites any existing
file of the same name. -/
def writeFile (dir : PhotoDir) (fname : String) (bytes : Bytes) : PhotoDir :=
  dir.filter (fun f => f.1 ≠ fname) ++ [(fname, bytes)]

/-- Removing a file (`fs.unlinkSync` guarded by `fs.existsSync`): a missing
file is left alone. -/
def removeFile (dir : PhotoDir) (fname : String) : PhotoDir :=
  dir.filter (fun f => f.1 ≠ fname)

/-- The whole observable state of the service: the in-memory `db.items`,
the items recorded in the persisted JSON document `inventory.json`, and the
photos directory. -/
structure ServerState where
  items : List Item
  diskItems : List Item
  photos : PhotoDir
deriving Repr, DecidableEq

/-- Embeds `saveDb()` (source lines 57-59): the in-memory collection is
written out to the JSON document. -/
def saveDb (st : ServerState) : ServerState :=
  { st with diskItems := st.items }

/-- Embeds `findItem(id)` (source lines 61-63): first item with the given
id. -/
def findItem (items : List Item) (id : String) : Option Item :=
  items.find? (fun i => i.id = id)

/-- HTTP responses produced by the handlers.  `notAllowed` carries the
`Allow` header set by `allowMethods`; `staticFile` stands for
`res.sendFile` of one of the two form pages. -/
inductive Response where
  | json : Nat → JVal → Response
  | text : Nat → String → Response
  | file : Nat → String → Bytes → Response
  | notAllowed : List String → Response
  | staticFile : String → Response

/-- Status code of a response. -/
def Response.status : Response → Nat
  | .json s _ => s
  | .text s _ => s
  | .file s _ _ => s
  | .notAllowed _ => 405
  | .staticFile _ => 200

/-- The `Allow` header of a response, when one is set. -/
def Response.allowHeader : Response → Option (List String)
  | .notAllowed ms => some ms
  | _ => none

/-- Embeds the rest-spread `const { storedFileName, ...publicData } = item`
(used at source lines 131, 136, 144, 157, 189): the public projection keeps
the remaining fields in declaration order. -/
def publicData (it : Item) : List (String × JVal) :=
  [("id", .jstr it.id),
   ("name", .jstr it.name),
   ("description", .jstr it.description),
   ("photo", match it.photo with | some p => .jstr p | none => .jnull)]

/-- Embeds the multer `diskStorage` middleware of `upload.single('photo')`
(source lines 75-83): when the request carries a file, it is written to the
photos directory under the freshly generated name `fname` before the route
handler runs, and `req.file.filename` is that name. -/
def multerWrite (st : ServerState) (upload : Option Bytes) (fname : String) :
    ServerState × Option String :=
  match upload with
  | none => (st, none)
  | some bytes => ({ st with photos := writeFile st.photos fname bytes }, some fname)

/-- The item literal built by `app.post('/register', ...)` (source lines
120-126); `file` is `req.file ? req.file.filename : null`. -/
def registerItem (inventory_name description : Option String)
    (file : Option String) (newId : String) : Item :=
  { id := newId
  , name := inventory_name.getD ""
  , description := description.getD ""
  , photo := match file with
      | some _ => some ("/inventory/" ++ newId ++ "/photo")
      | none => none
  , storedFileName := file }

/-- Embeds `app.post('/register', ...)` (source lines 109-133).  `newId` is
the `uuidv4()` value generated for the item, `fname` the multer-generated
file name. -/
def register (st : ServerState) (inventory_name description : Option String)
    (upload : Option Bytes) (newId fname : String) : Response × ServerState :=
  let m := multerWrite st upload fname
  if strTruthy inventory_name then
    let it := registerItem inventory_name description m.2 newId
    let st2 := saveDb { m.1 with items := m.1.items ++ [it] }
    (.json 201 (.jobj (publicData it)), st2)
  else
    (.json 400 (.jobj [("error", .jstr "inventory_name is required")]), m.1)

/-- Embeds `app.get('/inventory', ...)` (source lines 135-138). -/
def getInventory (st : ServerState) : Response × ServerState :=
  (.json 200 (.jarr (st.items.map (fun it => .jobj (publicData it)))), st)

/-- Embeds `app.get('/inventory/:id', ...)` (source lines 140-146). -/
def getInventoryId (st : ServerState) (id : String) : Response × ServerState :=
  match findItem st.items id with
  | none => (.text 404 "Not found", st)
  | some it => (.json 200 (.jobj (publicData it)), st)

/-- Replaces the first element satisfying `p` by its image under `f`;
functional rendering of mutating the object returned by `findItem` in
place inside `db.items`. -/
def updateFirst (p : α → Bool) (f : α → α) : List α → List α
  | [] => []
  | x :: xs => if p x then f x :: xs else x :: updateFirst p f xs

/-- Field update performed by `app.put('/inventory/:id', ...)` (source
lines 152-153): a truthy supplied value overwrites, otherwise the field is
kept. -/
def metadataUpdate (name description : Option String) (it : Item) : Item :=
  { it with
    name := if strTruthy name then name.getD "" else it.name
    description := if strTruthy description then description.getD "" else it.description }

/-- Embeds `app.put('/inventory/:id', ...)` (source lines 148-159). -/
def putInventoryId (st : ServerState) (id : String)
    (name description : Option String) : Response × ServerState :=
  match findItem st.items id with
  | none => (.text 404 "Not found", st)
  | some it =>
    let it' := metadataUpdate name description it
    let st' := saveDb { st with
      items := updateFirst (fun i => i.id = id) (metadataUpdate name description) st.items }
    (.json 200 (.jobj (publicData it')), st')

/-- Embeds `app.get('/inventory/:id/photo', ...)` (source lines 161-170). -/
def getPhoto (st : ServerState) (id : String) : Response × ServerState :=
  match findItem st.items id with
  | none => (.text 404 "Not found", st)
  | some it =>
    if strTruthy it.storedFileName then
      match readFile st.photos (it.storedFileName.getD "") with
      | none => (.text 404 "Not found", st)
      | some bytes => (.file 200 "image/jpeg" bytes, st)
    else (.text 404 "Not found", st)

/-- Photo update performed by `app.put('/inventory/:id/photo', ...)`
(source lines 184-185). -/
def photoUpdate (fname : String) (it : Item) : Item :=
  { it with
    storedFileName := some fname
    photo := some ("/inventory/" ++ it.id ++ "/photo") }

/-- Embeds `app.put('/inventory/:id/photo', ...)` (source lines 172-191).
Multer writes the uploaded file first; the handler then deletes the item's
old photo file (if any) and records the new name. -/
def putPhoto (st : ServerState) (id : String) (upload : Option Bytes)
    (fname : String) : Response × ServerState :=
  let m := multerWrite st upload fname
  let st1 := m.1
  match findItem st1.items id with
  | none => (.text 404 "Not found", st1)
  | some it =>
    match m.2 with
    | none => (.text 400 "No file uploaded", st1)
    | some _ =>
      let st2 :=
        if strTruthy it.storedFileName then
          { st1 with photos := removeFile st1.photos (it.storedFileName.getD "") }
        else st1
      let it' := photoUpdate fname it
      let st3 := saveDb { st2 with
        items := updateFirst (fun i => i.id = id) (photoUpdate fname) st2.items }
      (.json 200 (.jobj (publicData it')), st3)

/-- Removes the first element satisfying `p`, returning it and the
remaining list; functional rendering of `findIndex` + `splice(idx, 1)`
(source lines 194 and 205). -/
def removeFirst (p : α → Bool) : List α → Option (α × List α)
  | [] => none
  | x :: xs =>
    if p x then some (x, xs)
    else (removeFirst p xs).map (fun r => (r.1, x :: r.2))

/-- Embeds `app.delete('/inventory/:id', ...)` (source lines 193-209). -/
def deleteInventory (st : ServerState) (id : String) : Response × ServerState :=
  match removeFirst (fun i => i.id = id) st.items with
  | none => (.text 404 "Not found", st)
  | some (it, rest) =>
    let st1 :=
      if strTruthy it.storedFileName then
        { st with photos := removeFile st.photos (it.storedFileName.getD "") }
      else st
    let st2 := saveDb { st1 with items := rest }
    (.json 200 (.jobj [("message", .jstr "Deleted")]), st2)

/-- Embeds `app.post('/search', ...)` (source lines 212-231); `hp` is the
form field `has_photo`. -/
def searchPost (st : ServerState) (id hp : Option String) : Response × ServerState :=
  if strTruthy id then
    match findItem st.items (id.getD "") with
    | none => (.text 404 "Not found", st)
    | some it =>
      let description :=
        if strTruthy hp && strTruthy it.photo then
          it.description ++ " Photo: " ++ it.photo.getD ""
        else it.description
      (.json 200 (.jobj
        [("id", .jstr it.id), ("name", .jstr it.name),
         ("description", .jstr description)]), st)
  else (.text 400 "id required", st)

/-- Embeds `app.get('/search', ...)` (source lines 234-253); `hp` is the
query parameter `includePhoto`. -/
def searchGet (st : ServerState) (id hp : Option String) : Response × ServerState :=
  if strTruthy id then
    match findItem st.items (id.getD "") with
    | none => (.text 404 "Not found", st)
    | some it =>
      let description :=
        if strTruthy hp && strTruthy it.photo then
          it.description ++ " Photo: " ++ it.photo.getD ""
        else it.description
      (.json 200 (.jobj
        [("id", .jstr it.id), ("name", .jstr it.name),
         ("description", .jstr description)]), st)
  else (.text 400 "id required", st)

/-- HTTP methods relevant to the service; `other` stands for any further
method. -/
inductive Method where
  | get | post | put | delete | other
deriving Repr, DecidableEq

/-- Method name as it appears in `req.method`. -/
def Method.name : Method → String
  | .get => "GET"
  | .post => "POST"
  | .put => "PUT"
  | .delete => "DELETE"
  | .other => "OTHER"

/-- A request: method, path split into segments, the form/query fields the
handlers read, and the optional uploaded file.  `newId` and `fname` are the
values produced by the two `uuidv4()` calls a request may trigger (item id,
multer file name). -/
structure Request where
  method : Method
  path : List String
  inventory_name : Option String := none
  description : Option String := none
  name : Option String := none
  bodyId : Option String := none
  has_photo : Option String := none
  queryId : Option String := none
  includePhoto : Option String := none
  upload : Option Bytes := none
deriving Repr

/-- Embeds the `allowMethods` helper (source lines 95-103): when the
request method is not in the list, responds 405 with an `Allow` header;
otherwise control passes to the handler.  Express only routes a request to
a handler whose method already matches, so the 405 branch is unreachable
through `dispatch`. -/
def allowMethods (methods : List String) (m : Method)
    (handler : ServerState → Response × ServerState) (st : ServerState) :
    Response × ServerState :=
  if methods.contains m.name then handler st
  else (.notAllowed methods, st)

/-- Embeds the Express routing table (source lines 86-256) in registration
order: the two static form pages, the API routes, and the fallback
`app.use((req, res) => res.status(404)...)`.  Each `app.get`/`app.post`/...
registration matches on its own method and path pattern; a request matching
no registration reaches the fallback. -/
def dispatch (st : ServerState) (req : Request) (newId fname : String) :
    Response × ServerState :=
  match req.method, req.path with
  | .get, ["RegisterForm.html"] => (.staticFile "RegisterForm.html", st)
  | .get, ["SearchForm.html"] => (.staticFile "SearchForm.html", st)
  | .post, ["register"] =>
    allowMethods ["POST"] .post
      (fun s => register s req.inventory_name req.description req.upload newId fname) st
  | .get, ["inventory"] => allowMethods ["GET"] .get getInventory st
  | .get, ["inventory", id] =>
    allowMethods ["GET"] .get (fun s => getInventoryId s id) st
  | .put, ["inventory", id] =>
    allowMethods ["PUT"] .put (fun s => putInventoryId s id req.name req.description) st
  | .get, ["inventory", id, "photo"] =>
    allowMethods ["GET"] .get (fun s => getPhoto s id) st
  | .put, ["inventory", id, "photo"] =>
    allowMethods ["PUT"] .put (fun s => putPhoto s id req.upload fname) st
  | .delete, ["inventory", id] =>
    allowMethods ["DELETE"] .delete (fun s => deleteInventory s id) st
  | .post, ["search"] =>
    allowMethods ["POST"] .post (fun s => searchPost s req.bodyId req.has_photo) st
  | .get, ["search"] =>
    allowMethods ["GET"] .get (fun s => searchGet s req.queryId req.includePhoto) st
  | _, _ => (.text 404 "Not found", st)

/-- Methods the registered routes accept for a given path (empty when no
route is registered on the path).  Derived from the same routing table as
`dispatch`, for stating which requests reach a handler. -/
def allowedMethodsFor : List String → List Method
  | ["RegisterForm.html"] => [.get]
  | ["SearchForm.html"] => [.get]
  | ["register"] => [.post]
  | ["inventory"] => [.get]
  | ["inventory", _] => [.get, .put, .delete]
  | ["inventory", _, "photo"] => [.get, .put]
  | ["search"] => [.post, .get]
  | _ => []

/-- Runs a sequence of requests, each with its pair of generated
identifiers, threading the server state. -/
def runRequests (st : ServerState) : List (Request × String × String) → ServerState
  | [] => st
  | r :: rest => runRequests (dispatch st r.1 r.2.1 r.2.2).2 rest

end Inventory

namespace Inventory

/-! JSON parsing, for the DB initialization at source lines 44-55
(`JSON.parse(fs.readFileSync(DB_FILE, 'utf8') || '{}')`). -/

/-- Drops leading JSON whitespace. -/
def skipWs : List Char → List Char
  | c :: cs =>
    if c = ' ' ∨ c = '\t' ∨ c = '\n' ∨ c = '\r' then skipWs cs else c :: cs
  | [] => []

/-- Parses the remainder of a JSON string literal after the opening quote,
handling escape sequences. -/
def parseStringRest : List Char → Option (String × List Char)
  | [] => none
  | c :: cs =>
    if c = '"' then some ("", cs)
    else if c = '\\' then
      match cs with
      | [] => none
      | e :: cs' =>
        let esc : Option Char :=
          if e = '"' then some '"'
          else if e = '\\' then some '\\'
          else if e = '/' then some '/'
          else if e = 'b' then some (Char.ofNat 8)
          else if e = 'f' then some (Char.ofNat 12)
          else if e = 'n' then some '\n'
          else if e = 'r' then some '\r'
          else if e = 't' then some '\t'
          else none
        match esc with
        | none => none
        | some d => (parseStringRest cs').map (fun r => (String.mk [d] ++ r.1, r.2))
    else (parseStringRest cs).map (fun r => (String.mk [c] ++ r.1, r.2))

/-- Longest prefix of characters belonging to a number lexeme. -/
def numChars : List Char → String × List Char
  | c :: cs =>
    if c.isDigit ∨ c = '-' ∨ c = '+' ∨ c = '.' ∨ c = 'e' ∨ c = 'E' then
      let r := numChars cs
      (String.mk [c] ++ r.1, r.2)
    else ("", c :: cs)
  | [] => ("", [])

mutual

/-- Parses one JSON value (fuel-bounded recursion). -/
def parseVal : Nat → List Char → Option (JVal × List Char)
  | 0, _ => none
  | fuel + 1, input =>
    match skipWs input with
    | [] => none
    | c :: cs =>
      if c = 'n' then
        match c :: cs with
        | 'n' :: 'u' :: 'l' :: 'l' :: rest => some (.jnull, rest)
        | _ => none
      else if c = 't' then
        match c :: cs with
        | 't' :: 'r' :: 'u' :: 'e' :: rest => some (.jbool true, rest)
        | _ => none
      else if c = 'f' then
        match c :: cs with
        | 'f' :: 'a' :: 'l' :: 's' :: 'e' :: rest => some (.jbool false, rest)
        | _ => none
      else if c = '"' then
        (parseStringRest cs).map (fun r => (.jstr r.1, r.2))
      else if c = '[' then
        match skipWs cs with
        | ']' :: rest => some (.jarr [], rest)
        | rest => parseArrItems fuel rest
      else if c = '\x7b' then
        match skipWs cs with
        | '\x7d' :: rest => some (.jobj [], rest)
        | rest => parseObjItems fuel rest
      else if c.isDigit ∨ c = '-' then
        let r := numChars (c :: cs)
        if r.1.isEmpty then none else some (.jnum r.1, r.2)
      else none

/-- Parses the members of a non-empty JSON array, including the closing
bracket. -/
def parseArrItems : Nat → List Char → Option (JVal × List Char)
  | 0, _ => none
  | fuel + 1, input =>
    match parseVal fuel input with
    | none => none
    | some (v, rest) =>
      match skipWs rest with
      | ',' :: rest' =>
        match parseArrItems fuel rest' with
        | some (.jarr vs, rest'') => some (.jarr (v :: vs), rest'')
        | _ => none
      | ']' :: rest' => some (.jarr [v], rest')
      | _ => none

/-- Parses the members of a non-empty JSON object, including the closing
brace. -/
def parseObjItems : Nat → List Char → Option (JVal × List Char)
  | 0, _ => none
  | fuel + 1, input =>
    match skipWs input with
    | '"' :: cs =>
      match parseStringRest cs with
      | none => none
      | some (k, rest) =>
        match skipWs rest with
        | ':' :: rest' =>
          match parseVal fuel rest' with
          | none => none
          | some (v, rest'') =>
            match skipWs rest'' with
            | ',' :: rest3 =>
              match parseObjItems fuel rest3 with
              | some (.jobj fs, rest4) => some (.jobj ((k, v) :: fs), rest4)
              | _ => none
            | '\x7d' :: rest3 => some (.jobj [(k, v)], rest3)
            | _ => none
        | _ => none
    | _ => none

end

/-- Embeds `JSON.parse` as used at source line 47: the whole string must be
one JSON value followed only by whitespace; `none` models a thrown
`SyntaxError`. -/
def jsonParse (s : String) : Option JVal :=
  match parseVal (s.length + 1) s.data with
  | none => none
  | some (v, rest) => if skipWs rest = [] then some v else none

/-- Embeds the DB initialization (source lines 44-55).  `fileContent` is
`some text` when `DB_FILE` exists with that content and `none` when it is
absent.  Returns the initial `db` value and whether the file was written
out. -/
def initDb (fileContent : Option String) : JVal × Bool :=
  match fileContent with
  | none => (.jobj [("items", .jarr [])], true)
  | some text =>
    let src := if text.isEmpty then "\x7b\x7d" else text
    match jsonParse src with
    | some v => (v, false)
    | none => (.jobj [("items", .jarr [])], false)

/-! Helper lemmas about the file-directory and list operations. -/

theorem existsFile_iff {dir : PhotoDir} {f : String} :
    existsFile dir f = true ↔ ∃ e ∈ dir, e.1 = f := by
  simp [existsFile, List.find?_isSome]

theorem find?_filter_ne {dir : PhotoDir} {f g : String} (h : f ≠ g) :
    (dir.filter (fun e => e.1 ≠ g)).find? (fun e => e.1 = f) =
      dir.find? (fun e => e.1 = f) := by
  induction dir with
  | nil => rfl
  | cons e rest ih =>
    rw [List.filter_cons]
    by_cases hg : e.1 = g
    · rw [if_neg (by simp [hg]), ih,
        List.find?_cons_of_neg _ (by
          simp only [decide_eq_true_eq]
          exact fun hf => h (hf.symm.trans hg))]
    · rw [if_pos (by simp [hg])]
      by_cases hf : e.1 = f
      · rw [List.find?_cons_of_pos _ (by simpa using hf),
          List.find?_cons_of_pos _ (by simpa using hf)]
      · rw [List.find?_cons_of_neg _ (by simpa using hf),
          List.find?_cons_of_neg _ (by simpa using hf), ih]

theorem existsFile_writeFile_ne {dir : PhotoDir} {f fn : String} {b : Bytes}
    (h : f ≠ fn) : existsFile (writeFile dir fn b) f = existsFile dir f := by
  unfold existsFile writeFile
  rw [List.find?_append, show ([(fn, b)].find? (fun e => e.1 = f)) = none by simp [Ne.symm h],
    Option.or_none, find?_filter_ne h]

theorem existsFile_removeFile_ne {dir : PhotoDir} {f g : String}
    (h : f ≠ g) : existsFile (removeFile dir g) f = existsFile dir f := by
  unfold existsFile removeFile
  rw [find?_filter_ne h]

theorem existsFile_removeFile_self {dir : PhotoDir} {g : String} :
    existsFile (removeFile dir g) g = false := by
  rw [← Bool.not_eq_true]
  intro h
  rcases existsFile_iff.mp h with ⟨e, he, hef⟩
  have := (List.mem_filter.mp he).2
  simp [hef] at this

theorem readFile_writeFile_self {dir : PhotoDir} {fn : String} {b : Bytes} :
    readFile (writeFile dir fn b) fn = some b := by
  unfold readFile writeFile
  rw [List.find?_append]
  have h1 : (dir.filter (fun e => e.1 ≠ fn)).find? (fun e => e.1 = fn) = none := by
    rw [List.find?_eq_none]
    intro e he
    have := (List.mem_filter.mp he).2
    simpa using this
  simp [h1]

theorem readFile_removeFile_ne {dir : PhotoDir} {f g : String}
    (h : f ≠ g) : readFile (removeFile dir g) f = readFile dir f := by
  unfold readFile removeFile
  rw [find?_filter_ne h]

theorem find?_updateFirst {p : α → Bool} {f : α → α} {l : List α}
    (hp : ∀ x, p (f x) = p x) :
    (updateFirst p f l).find? p = (l.find? p).map f := by
  induction l with
  | nil => rfl
  | cons x xs ih =>
    by_cases hx : p x = true
    · rw [updateFirst, if_pos hx, List.find?_cons_of_pos _ ((hp x).trans hx),
        List.find?_cons_of_pos _ hx, Option.map_some']
    · rw [updateFirst, if_neg hx, List.find?_cons_of_neg _ hx,
        List.find?_cons_of_neg _ hx, ih]

theorem updateFirst_eq_self {p : α → Bool} {f : α → α} {l : List α}
    (hf : ∀ x, p x = true → f x = x) : updateFirst p f l = l := by
  induction l with
  | nil => rfl
  | cons x xs ih =>
    by_cases hx : p x = true
    · rw [updateFirst, if_pos hx, hf x hx]
    · rw [updateFirst, if_neg hx, ih]

theorem mem_updateFirst {p : α → Bool} {f : α → α} {l : List α} {x : α}
    (h : x ∈ updateFirst p f l) : x ∈ l ∨ ∃ y ∈ l, x = f y := by
  induction l with
  | nil => simp [updateFirst] at h
  | cons z zs ih =>
    by_cases hz : p z
    · simp only [updateFirst, hz, if_true] at h
      rcases List.mem_cons.mp h with h1 | h1
      · exact Or.inr ⟨z, List.mem_cons_self _ _, h1⟩
      · exact Or.inl (List.mem_cons_of_mem _ h1)
    · simp only [updateFirst, hz, if_false] at h
      rcases List.mem_cons.mp h with h1 | h1
      · exact Or.inl (h1 ▸ List.mem_cons_self _ _)
      · rcases ih h1 with h2 | ⟨y, hy, hxy⟩
        · exact Or.inl (List.mem_cons_of_mem _ h2)
        · exact Or.inr ⟨y, List.mem_cons_of_mem _ hy, hxy⟩

theorem removeFirst_none_iff {p : α → Bool} {l : List α} :
    removeFirst p l = none ↔ l.find? p = none := by
  induction l with
  | nil => simp [removeFirst]
  | cons x xs ih =>
    by_cases hx : p x = true
    · simp [removeFirst, hx]
    · rw [List.find?_cons_of_neg _ hx]
      simp only [removeFirst, if_neg hx, Option.map_eq_none', ih]

theorem removeFirst_decomp {p : α → Bool} {l : List α} {a : α} {rest : List α}
    (h : removeFirst p l = some (a, rest)) :
    ∃ l1 l2, l = l1 ++ a :: l2 ∧ rest = l1 ++ l2 ∧
      (∀ x ∈ l1, p x = false) ∧ p a = true := by
  induction l generalizing a rest with
  | nil => simp [removeFirst] at h
  | cons x xs ih =>
    by_cases hx : p x = true
    · rw [removeFirst, if_pos hx] at h
      simp only [Option.some_inj, Prod.mk.injEq] at h
      exact ⟨[], xs, by simp [h.1], by simp [h.2], by simp, h.1 ▸ hx⟩
    · rw [removeFirst, if_neg hx] at h
      rw [Option.map_eq_some'] at h
      rcases h with ⟨⟨a', rest'⟩, hr, heq⟩
      simp only [Prod.mk.injEq] at heq
      rcases heq with ⟨rfl, rfl⟩
      rcases ih hr with ⟨l1, l2, hl, hrest, hl1, hpa⟩
      refine ⟨x :: l1, l2, by simp [hl], by simp [hrest], ?_, hpa⟩
      intro y hy
      rcases List.mem_cons.mp hy with h1 | h1
      · simpa [h1] using hx
      · exact hl1 y h1

theorem removeFirst_mem {p : α → Bool} {l : List α} {a : α} {rest : List α}
    (h : removeFirst p l = some (a, rest)) : a ∈ l ∧ p a = true := by
  rcases removeFirst_decomp h with ⟨l1, l2, hl, _, _, hpa⟩
  exact ⟨hl ▸ List.mem_append.mpr (Or.inr (List.mem_cons_self _ _)), hpa⟩

theorem removeFirst_rest_sub {p : α → Bool} {l : List α} {a : α} {rest : List α}
    (h : removeFirst p l = some (a, rest)) : ∀ x ∈ rest, x ∈ l := by
  rcases removeFirst_decomp h with ⟨l1, l2, hl, hrest, _, _⟩
  intro x hx
  rcases List.mem_append.mp (hrest ▸ hx) with h1 | h1
  · exact hl ▸ List.mem_append.mpr (Or.inl h1)
  · exact hl ▸ List.mem_append.mpr (Or.inr (List.mem_cons_of_mem _ h1))

theorem findItem_id {items : List Item} {id : String} {it : Item}
    (h : findItem items id = some it) : it.id = id := by
  have := List.find?_some h
  simpa using this

theorem multerWrite_items (st : ServerState) (up : Option Bytes) (fn : String) :
    (multerWrite st up fn).1.items = st.items := by
  cases up <;> rfl

theorem multerWrite_diskItems (st : ServerState) (up : Option Bytes) (fn : String) :
    (multerWrite st up fn).1.diskItems = st.diskItems := by
  cases up <;> rfl

theorem register_eq_pos {st : ServerState} {nm ds : Option String}
    {up : Option Bytes} {nid fn : String} (h : strTruthy nm = true) :
    register st nm ds up nid fn =
      (.json 201 (.jobj (publicData (registerItem nm ds (multerWrite st up fn).2 nid))),
       saveDb { (multerWrite st up fn).1 with
         items := (multerWrite st up fn).1.items ++
           [registerItem nm ds (multerWrite st up fn).2 nid] }) := by
  unfold register
  rw [if_pos h]

theorem register_eq_neg {st : ServerState} {nm ds : Option String}
    {up : Option Bytes} {nid fn : String} (h : strTruthy nm = false) :
    register st nm ds up nid fn =
      (.json 400 (.jobj [("error", .jstr "inventory_name is required")]),
       (multerWrite st up fn).1) := by
  unfold register
  rw [if_neg (by simp [h])]

/-! Witness fixtures: a concrete server state with two items and one photo
file. -/

def wItem : Item :=
  { id := "item-1", name := "Lamp", description := "desk lamp"
  , photo := some "/inventory/item-1/photo", storedFileName := some "abc.jpg" }

def wItem2 : Item :=
  { id := "item-2", name := "Chair", description := ""
  , photo := none, storedFileName := none }

def wState : ServerState :=
  { items := [wItem, wItem2], diskItems := [wItem, wItem2]
  , photos := [("abc.jpg", [1, 2, 3])] }

/-- Statement helper: every JSON object carried by a success (200/201) JSON
response has exactly the public item fields `id`, `name`, `description`,
`photo` — in particular no `storedFileName`. -/
def onlyPublicFields : Response → Prop
  | .json s b =>
    s = 200 ∨ s = 201 →
      match b with
      | .jarr l => ∀ v ∈ l,
          v.keys = ["id", "name", "description", "photo"] ∧ "storedFileName" ∉ v.keys
      | v => v.keys = ["id", "name", "description", "photo"] ∧ "storedFileName" ∉ v.keys
  | _ => True

theorem publicData_keys (it : Item) :
    (JVal.jobj (publicData it)).keys = ["id", "name", "description", "photo"] := rfl

theorem storedFileName_not_mem_publicData_keys (it : Item) :
    "storedFileName" ∉ (JVal.jobj (publicData it)).keys := by
  rw [publicData_keys]
  simp

theorem onlyPublicFields_item (s : Nat) (it : Item) :
    onlyPublicFields (.json s (.jobj (publicData it))) := by
  intro _
  exact ⟨publicData_keys it, storedFileName_not_mem_publicData_keys it⟩

theorem getInventoryId_eq_none {st : ServerState} {iid : String}
    (h : findItem st.items iid = none) :
    getInventoryId st iid = (.text 404 "Not found", st) := by
  simp [getInventoryId, h]

theorem getInventoryId_eq_some {st : ServerState} {iid : String} {it : Item}
    (h : findItem st.items iid = some it) :
    getInventoryId st iid = (.json 200 (.jobj (publicData it)), st) := by
  simp [getInventoryId, h]

theorem putInventoryId_eq_none {st : ServerState} {iid : String}
    {nm ds : Option String} (h : findItem st.items iid = none) :
    putInventoryId st iid nm ds = (.text 404 "Not found", st) := by
  simp [putInventoryId, h]

theorem putInventoryId_eq_some {st : ServerState} {iid : String} {it : Item}
    {nm ds : Option String} (h : findItem st.items iid = some it) :
    putInventoryId st iid nm ds =
      (.json 200 (.jobj (publicData (metadataUpdate nm ds it))),
       saveDb { st with items := (updateFirst (fun i => i.id = iid)
         (metadataUpdate nm ds) st.items) }) := by
  simp [putInventoryId, h]

theorem putPhoto_eq_notFound {st : ServerState} {iid : String}
    {up : Option Bytes} {fn : String}
    (h : findItem (multerWrite st up fn).1.items iid = none) :
    putPhoto st iid up fn = (.text 404 "Not found", (multerWrite st up fn).1) := by
  simp [putPhoto, h]

theorem putPhoto_eq_noFile {st : ServerState} {iid : String} {it : Item}
    {up : Option Bytes} {fn : String}
    (hit : findItem (multerWrite st up fn).1.items iid = some it)
    (h : (multerWrite st up fn).2 = none) :
    putPhoto st iid up fn = (.text 400 "No file uploaded", (multerWrite st up fn).1) := by
  simp [putPhoto, hit, h]

theorem putPhoto_eq_ok {st : ServerState} {iid : String} {it : Item}
    {up : Option Bytes} {fn fup : String}
    (hit : findItem (multerWrite st up fn).1.items iid = some it)
    (h : (multerWrite st up fn).2 = some fup) :
    putPhoto st iid up fn =
      (.json 200 (.jobj (publicData (photoUpdate fn it))),
       saveDb { (if strTruthy it.storedFileName = true then
           { (multerWrite st up fn).1 with
             photos := removeFile (multerWrite st up fn).1.photos
               (it.storedFileName.getD "") }
         else (multerWrite st up fn).1) with
         items := (updateFirst (fun i => i.id = iid) (photoUpdate fn)
           (multerWrite st up fn).1.items) }) := by
  by_cases hs : strTruthy it.storedFileName = true <;>
    simp [putPhoto, hit, h, hs]

/-- Claim C1: on every route where an Item crosses the API boundary
(`POST /register`, `GET /inventory`, `GET /inventory/:id`,
`PUT /inventory/:id`, `PUT /inventory/:id/photo`), a success response's
JSON never contains `storedFileName` and has exactly the fields `id`,
`name`, `description`, `photo`. -/
theorem c1_public_projection (st : ServerState) (nm ds n2 d2 : Option String)
    (up up2 : Option Bytes) (nid fn iid fn2 : String) :
    onlyPublicFields (register st nm ds up nid fn).1
  ∧ onlyPublicFields (getInventory st).1
  ∧ onlyPublicFields (getInventoryId st iid).1
  ∧ onlyPublicFields (putInventoryId st iid n2 d2).1
  ∧ onlyPublicFields (putPhoto st iid up2 fn2).1 := by
  refine ⟨?_, ?_, ?_, ?_, ?_⟩
  · by_cases h : strTruthy nm = true
    · rw [register_eq_pos h]
      exact onlyPublicFields_item _ _
    · rw [register_eq_neg (by simpa using h)]
      rintro (h2 | h2) <;> exact absurd h2 (by decide)
  · intro _ v hv
    simp only [getInventory, List.mem_map] at hv
    rcases hv with ⟨it, _, rfl⟩
    exact ⟨publicData_keys it, storedFileName_not_mem_publicData_keys it⟩
  · cases hfi : findItem st.items iid with
    | none => rw [getInventoryId_eq_none hfi]; exact trivial
    | some it => rw [getInventoryId_eq_some hfi]; exact onlyPublicFields_item _ _
  · cases hfi : findItem st.items iid with
    | none => rw [putInventoryId_eq_none hfi]; exact trivial
    | some it =>
      rw [putInventoryId_eq_some hfi]
      exact onlyPublicFields_item _ _
  · cases hfi : findItem (multerWrite st up2 fn2).1.items iid with
    | none => rw [putPhoto_eq_notFound hfi]; exact trivial
    | some it =>
      cases hm : (multerWrite st up2 fn2).2 with
      | none => rw [putPhoto_eq_noFile hfi hm]; exact trivial
      | some f => rw [putPhoto_eq_ok hfi hm]; exact onlyPublicFields_item _ _

/-- Claim C2: `POST /register` with an empty/absent `inventory_name`
returns 400 and leaves the collection (memory and disk) unchanged; with a
non-empty name it returns 201 with the public JSON of a new item whose id
is the freshly generated one, whose description defaults to `""` when
absent, and the item is appended and persisted before the response. -/
theorem c2_register (st : ServerState) (nm ds : Option String)
    (up : Option Bytes) (nid fn : String) :
    (strTruthy nm = false →
        (register st nm ds up nid fn).1.status = 400
      ∧ (register st nm ds up nid fn).2.items = st.items
      ∧ (register st nm ds up nid fn).2.diskItems = st.diskItems)
  ∧ (strTruthy nm = true →
      ∃ it : Item,
        (register st nm ds up nid fn).1 = .json 201 (.jobj (publicData it))
      ∧ it.id = nid
      ∧ (nid ∉ st.items.map Item.id → ∀ old ∈ st.items, it.id ≠ old.id)
      ∧ (ds = none → it.description = "")
      ∧ (register st nm ds up nid fn).2.items = st.items ++ [it]
      ∧ (register st nm ds up nid fn).2.diskItems = st.items ++ [it]) := by
  constructor
  · intro h
    rw [register_eq_neg h]
    exact ⟨rfl, multerWrite_items st up fn, multerWrite_diskItems st up fn⟩
  · intro h
    refine ⟨registerItem nm ds (multerWrite st up fn).2 nid, ?_, rfl, ?_, ?_, ?_, ?_⟩
    · rw [register_eq_pos h]
    · intro hfresh old hold heq
      refine hfresh ?_
      rw [show nid = old.id from heq]
      exact List.mem_map_of_mem Item.id hold
    · rintro rfl
      rfl
    · rw [register_eq_pos h]
      simp [saveDb, multerWrite_items]
    · rw [register_eq_pos h]
      simp [saveDb, multerWrite_items]

/-- Witness for C2 at a concrete state: registering with name `"Desk"`
appends a fresh item and answers 201. -/
theorem c2_register_witness :
    ∃ it : Item,
      (register wState (some "Desk") none none "item-3" "f.jpg").1 =
        .json 201 (.jobj (publicData it))
    ∧ it.id = "item-3"
    ∧ ("item-3" ∉ wState.items.map Item.id → ∀ old ∈ wState.items, it.id ≠ old.id)
    ∧ ((none : Option String) = none → it.description = "")
    ∧ (register wState (some "Desk") none none "item-3" "f.jpg").2.items =
        wState.items ++ [it]
    ∧ (register wState (some "Desk") none none "item-3" "f.jpg").2.diskItems =
        wState.items ++ [it] :=
  (c2_register wState (some "Desk") none none "item-3" "f.jpg").2 rfl

/-- Claim C3: `PUT /inventory/:id` on a present id keeps `name` when the
supplied value is empty/absent and overwrites it when non-empty, likewise
for `description`; the result is persisted and answered 200 as the public
projection; an unknown id yields 404; supplying neither field is a no-op. -/
theorem c3_update_metadata (st : ServerState) (iid : String)
    (nm ds : Option String) :
    (findItem st.items iid = none →
      putInventoryId st iid nm ds = (.text 404 "Not found", st))
  ∧ (∀ it, findItem st.items iid = some it →
        (putInventoryId st iid nm ds).1 =
          .json 200 (.jobj (publicData (metadataUpdate nm ds it)))
      ∧ findItem (putInventoryId st iid nm ds).2.items iid =
          some (metadataUpdate nm ds it)
      ∧ (strTruthy nm = false → (metadataUpdate nm ds it).name = it.name)
      ∧ (strTruthy nm = true → (metadataUpdate nm ds it).name = nm.getD "")
      ∧ (strTruthy ds = false →
          (metadataUpdate nm ds it).description = it.description)
      ∧ (strTruthy ds = true → (metadataUpdate nm ds it).description = ds.getD "")
      ∧ (putInventoryId st iid nm ds).2.diskItems = (putInventoryId st iid nm ds).2.items
      ∧ (strTruthy nm = false → strTruthy ds = false →
          metadataUpdate nm ds it = it ∧ (putInventoryId st iid nm ds).2.items = st.items)) := by
  constructor
  · intro h
    simp [putInventoryId, h]
  · intro it h
    have hid : ∀ x : Item, (metadataUpdate nm ds x).id = x.id := fun _ => rfl
    have hfind : findItem (updateFirst (fun i => i.id = iid)
        (metadataUpdate nm ds) st.items) iid =
        (findItem st.items iid).map (metadataUpdate nm ds) := by
      unfold findItem
      exact find?_updateFirst (fun x => by simp [hid])
    refine ⟨?_, ?_, ?_, ?_, ?_, ?_, ?_, ?_⟩
    · simp [putInventoryId, h]
    · simp [putInventoryId, h, saveDb, hfind]
    · intro hnm
      simp [metadataUpdate, hnm]
    · intro hnm
      simp [metadataUpdate, hnm]
    · intro hds
      simp [metadataUpdate, hds]
    · intro hds
      simp [metadataUpdate, hds]
    · simp [putInventoryId, h, saveDb]
    · intro hnm hds
      have hide : metadataUpdate nm ds it = it := by
        simp [metadataUpdate, hnm, hds]
      refine ⟨hide, ?_⟩
      simp only [putInventoryId, h, saveDb]
      exact updateFirst_eq_self (fun x _ => by simp [metadataUpdate, hnm, hds])

/-- Witness for C3 at a concrete state: updating item `item-1` with an
absent name and a new description. -/
theorem c3_update_metadata_witness :
    (putInventoryId wState "item-1" none (some "new desc")).1 =
      .json 200 (.jobj (publicData (metadataUpdate none (some "new desc") wItem)))
  ∧ findItem (putInventoryId wState "item-1" none (some "new desc")).2.items "item-1" =
      some (metadataUpdate none (some "new desc") wItem)
  ∧ (strTruthy none = false →
      (metadataUpdate none (some "new desc") wItem).name = wItem.name)
  ∧ (strTruthy none = true →
      (metadataUpdate none (some "new desc") wItem).name = (none : Option String).getD "")
  ∧ (strTruthy (some "new desc") = false →
      (metadataUpdate none (some "new desc") wItem).description = wItem.description)
  ∧ (strTruthy (some "new desc") = true →
      (metadataUpdate none (some "new desc") wItem).description = (some "new desc").getD "")
  ∧ (putInventoryId wState "item-1" none (some "new desc")).2.diskItems =
      (putInventoryId wState "item-1" none (some "new desc")).2.items
  ∧ (strTruthy (none : Option String) = false → strTruthy (some "new desc") = false →
      metadataUpdate none (some "new desc") wItem = wItem
      ∧ (putInventoryId wState "item-1" none (some "new desc")).2.items = wState.items) :=
  (c3_update_metadata wState "item-1" none (some "new desc")).2 wItem rfl

/-- Witness-style instance of C1 at a concrete state. -/
theorem c1_public_projection_witness :
    onlyPublicFields (register wState (some "Desk") none none "item-3" "f.jpg").1
  ∧ onlyPublicFields (getInventory wState).1
  ∧ onlyPublicFields (getInventoryId wState "item-1").1
  ∧ onlyPublicFields (putInventoryId wState "item-1" none none).1
  ∧ onlyPublicFields (putPhoto wState "item-1" (some [9]) "g.jpg").1 :=
  c1_public_projection wState (some "Desk") none none none none (some [9])
    "item-3" "f.jpg" "item-1" "g.jpg"

theorem strTruthy_some_ne {s : String} (h : s ≠ "") :
    strTruthy (some s) = true := by
  have he : s.isEmpty = false := by
    rw [← Bool.not_eq_true]
    intro he
    exact h ((String.isEmpty_iff s).mp he)
  simp [strTruthy, he]

/-- Claim C4: `GET /inventory/:id/photo` answers 404 exactly when the id is
unknown, the item has no stored file name, or the file is missing from the
photos directory — with the identical `404 Not found` response in all three
cases — and otherwise serves the file bytes as `image/jpeg`; the state is
untouched. -/
theorem c4_photo_not_found (st : ServerState) (iid : String) :
    (getPhoto st iid).2 = st
  ∧ ((getPhoto st iid).1.status = 404 ↔
      (findItem st.items iid = none
       ∨ (∃ it, findItem st.items iid = some it ∧ strTruthy it.storedFileName = false)
       ∨ (∃ it, findItem st.items iid = some it ∧
            readFile st.photos (it.storedFileName.getD "") = none)))
  ∧ ((getPhoto st iid).1.status = 404 → (getPhoto st iid).1 = .text 404 "Not found")
  ∧ (∀ it bytes, findItem st.items iid = some it →
      strTruthy it.storedFileName = true →
      readFile st.photos (it.storedFileName.getD "") = some bytes →
      (getPhoto st iid).1 = .file 200 "image/jpeg" bytes) := by
  cases hfi : findItem st.items iid with
  | none =>
    rw [show getPhoto st iid = (.text 404 "Not found", st) by simp [getPhoto, hfi]]
    refine ⟨rfl, ⟨fun _ => Or.inl rfl, fun _ => rfl⟩, fun _ => rfl, ?_⟩
    intro it bytes hit
    exact absurd hit (by simp)
  | some it =>
    by_cases hs : strTruthy it.storedFileName = true
    · cases hr : readFile st.photos (it.storedFileName.getD "") with
      | none =>
        rw [show getPhoto st iid = (.text 404 "Not found", st) by
          simp [getPhoto, hfi, hs, hr]]
        refine ⟨rfl, ⟨fun _ => Or.inr (Or.inr ⟨it, rfl, hr⟩), fun _ => rfl⟩,
          fun _ => rfl, ?_⟩
        intro it' bytes hit' _ hrb
        injection hit' with he
        subst he
        rw [hr] at hrb
        exact absurd hrb (by simp)
      | some bytes =>
        rw [show getPhoto st iid = (.file 200 "image/jpeg" bytes, st) by
          simp [getPhoto, hfi, hs, hr]]
        refine ⟨rfl, ⟨fun h2 => absurd h2 (by simp [Response.status]), ?_⟩,
          fun h2 => absurd h2 (by simp [Response.status]), ?_⟩
        · rintro (h2 | ⟨it', hit', hs'⟩ | ⟨it', hit', hr'⟩)
          · exact absurd h2 (by simp)
          · injection hit' with he
            subst he
            rw [hs] at hs'
            exact absurd hs' (by simp)
          · injection hit' with he
            subst he
            rw [hr] at hr'
            exact absurd hr' (by simp)
        · intro it' bytes' hit' _ hrb'
          injection hit' with he
          subst he
          rw [hr] at hrb'
          injection hrb' with hb
          rw [hb]
    · have hs' : strTruthy it.storedFileName = false := by simpa using hs
      rw [show getPhoto st iid = (.text 404 "Not found", st) by
        simp [getPhoto, hfi, hs']]
      refine ⟨rfl, ⟨fun _ => Or.inr (Or.inl ⟨it, rfl, hs'⟩), fun _ => rfl⟩,
        fun _ => rfl, ?_⟩
      intro it' bytes hit' hst _
      injection hit' with he
      subst he
      rw [hs'] at hst
      exact absurd hst (by simp)

/-- Witness for C4 at a concrete state: the stored photo of `item-1` is
served with content type `image/jpeg`. -/
theorem c4_photo_not_found_witness :
    (getPhoto wState "item-1").1 = .file 200 "image/jpeg" [1, 2, 3] :=
  (c4_photo_not_found wState "item-1").2.2.2 wItem [1, 2, 3] rfl rfl rfl

theorem photoUpdate_id (fn : String) (it : Item) :
    (photoUpdate fn it).id = it.id := rfl

theorem findItem_multerWrite (st : ServerState) (up : Option Bytes)
    (fn iid : String) :
    findItem (multerWrite st up fn).1.items iid = findItem st.items iid := by
  rw [multerWrite_items]

/-- Claim C5: a successful `PUT /inventory/:id/photo` on an item that
already has a photo removes the old file from the photos directory, records
the new stored file name and the derived photo reference, persists, and the
new bytes are then served by `GET /inventory/:id/photo`; an unknown id
yields 404, a missing upload 400. -/
theorem c5_replace_photo (st : ServerState) (iid : String) (up : Option Bytes)
    (fn : String) :
    (findItem st.items iid = none → (putPhoto st iid up fn).1 = .text 404 "Not found")
  ∧ (∀ it, findItem st.items iid = some it → up = none →
      (putPhoto st iid up fn).1 = .text 400 "No file uploaded")
  ∧ (∀ it oldf bytes, findItem st.items iid = some it →
      it.storedFileName = some oldf → oldf ≠ "" →
      up = some bytes → fn ≠ oldf → fn ≠ "" →
        existsFile (putPhoto st iid up fn).2.photos oldf = false
      ∧ readFile (putPhoto st iid up fn).2.photos fn = some bytes
      ∧ findItem (putPhoto st iid up fn).2.items iid = some (photoUpdate fn it)
      ∧ (photoUpdate fn it).storedFileName = some fn
      ∧ (photoUpdate fn it).photo = some ("/inventory/" ++ it.id ++ "/photo")
      ∧ (putPhoto st iid up fn).2.diskItems = (putPhoto st iid up fn).2.items
      ∧ (putPhoto st iid up fn).1 = .json 200 (.jobj (publicData (photoUpdate fn it)))
      ∧ (getPhoto (putPhoto st iid up fn).2 iid).1 = .file 200 "image/jpeg" bytes) := by
  refine ⟨?_, ?_, ?_⟩
  · intro h
    rw [putPhoto_eq_notFound (by rw [findItem_multerWrite]; exact h)]
  · rintro it hit rfl
    have h0 : (multerWrite st none fn).2 = none := rfl
    rw [putPhoto_eq_noFile (by rw [findItem_multerWrite]; exact hit) h0]
  · rintro it oldf bytes hit hold holdne rfl hfo hfe
    have hit' : findItem (multerWrite st (some bytes) fn).1.items iid = some it := by
      rw [findItem_multerWrite]
      exact hit
    have hs : strTruthy it.storedFileName = true := by
      rw [hold]
      exact strTruthy_some_ne holdne
    rw [putPhoto_eq_ok hit' rfl]
    have hphotos :
        (saveDb { (if strTruthy it.storedFileName = true then
            { (multerWrite st (some bytes) fn).1 with
              photos := removeFile (multerWrite st (some bytes) fn).1.photos
                (it.storedFileName.getD "") }
          else (multerWrite st (some bytes) fn).1) with
          items := (updateFirst (fun i => i.id = iid) (photoUpdate fn)
            (multerWrite st (some bytes) fn).1.items) }).photos =
        removeFile (writeFile st.photos fn bytes) oldf := by
      rw [if_pos hs, hold]
      rfl
    have hitems :
        (saveDb { (if strTruthy it.storedFileName = true then
            { (multerWrite st (some bytes) fn).1 with
              photos := removeFile (multerWrite st (some bytes) fn).1.photos
                (it.storedFileName.getD "") }
          else (multerWrite st (some bytes) fn).1) with
          items := (updateFirst (fun i => i.id = iid) (photoUpdate fn)
            (multerWrite st (some bytes) fn).1.items) }).items =
        updateFirst (fun i => i.id = iid) (photoUpdate fn) st.items := by
      rw [if_pos hs]
      rfl
    have hfind : findItem (updateFirst (fun i => i.id = iid) (photoUpdate fn)
        st.items) iid = some (photoUpdate fn it) := by
      unfold findItem
      rw [find?_updateFirst (fun x => by simp [photoUpdate_id])]
      rw [show (List.find? (fun i => decide (i.id = iid)) st.items) = some it from hit]
      rfl
    refine ⟨?_, ?_, ?_, rfl, rfl, ?_, rfl, ?_⟩
    · rw [hphotos]
      exact existsFile_removeFile_self
    · rw [hphotos, readFile_removeFile_ne hfo, readFile_writeFile_self]
    · rw [hitems]
      exact hfind
    · rw [hitems, if_pos hs]
      rfl
    · have h1 : findItem (saveDb { (if strTruthy it.storedFileName = true then
            { (multerWrite st (some bytes) fn).1 with
              photos := removeFile (multerWrite st (some bytes) fn).1.photos
                (it.storedFileName.getD "") }
          else (multerWrite st (some bytes) fn).1) with
          items := (updateFirst (fun i => i.id = iid) (photoUpdate fn)
            (multerWrite st (some bytes) fn).1.items) }).items iid =
          some (photoUpdate fn it) := by
        rw [hitems]
        exact hfind
      simp only [getPhoto, h1]
      rw [show strTruthy (photoUpdate fn it).storedFileName = true from
        strTruthy_some_ne hfe]
      simp only [if_true]
      rw [show (photoUpdate fn it).storedFileName.getD "" = fn from rfl, hphotos,
        readFile_removeFile_ne hfo, readFile_writeFile_self]

/-- Witness for C5 at a concrete state: replacing the photo of `item-1`
removes `abc.jpg` and serves the new bytes. -/
theorem c5_replace_photo_witness :
    existsFile (putPhoto wState "item-1" (some [7, 7]) "g.jpg").2.photos "abc.jpg" = false
  ∧ readFile (putPhoto wState "item-1" (some [7, 7]) "g.jpg").2.photos "g.jpg" = some [7, 7]
  ∧ findItem (putPhoto wState "item-1" (some [7, 7]) "g.jpg").2.items "item-1" =
      some (photoUpdate "g.jpg" wItem)
  ∧ (photoUpdate "g.jpg" wItem).storedFileName = some "g.jpg"
  ∧ (photoUpdate "g.jpg" wItem).photo = some ("/inventory/" ++ wItem.id ++ "/photo")
  ∧ (putPhoto wState "item-1" (some [7, 7]) "g.jpg").2.diskItems =
      (putPhoto wState "item-1" (some [7, 7]) "g.jpg").2.items
  ∧ (putPhoto wState "item-1" (some [7, 7]) "g.jpg").1 =
      .json 200 (.jobj (publicData (photoUpdate "g.jpg" wItem)))
  ∧ (getPhoto (putPhoto wState "item-1" (some [7, 7]) "g.jpg").2 "item-1").1 =
      .file 200 "image/jpeg" [7, 7] :=
  (c5_replace_photo wState "item-1" (some [7, 7]) "g.jpg").2.2 wItem "abc.jpg" [7, 7]
    rfl rfl (by decide) rfl (by decide) (by decide)

theorem deleteInventory_eq_none {st : ServerState} {iid : String}
    (h : removeFirst (fun i => i.id = iid) st.items = none) :
    deleteInventory st iid = (.text 404 "Not found", st) := by
  simp [deleteInventory, h]

theorem deleteInventory_eq_some {st : ServerState} {iid : String} {it : Item}
    {rest : List Item}
    (h : removeFirst (fun i => i.id = iid) st.items = some (it, rest)) :
    deleteInventory st iid =
      (.json 200 (.jobj [("message", .jstr "Deleted")]),
       saveDb { (if strTruthy it.storedFileName = true then
           { st with photos := removeFile st.photos (it.storedFileName.getD "") }
         else st) with items := rest }) := by
  by_cases hs : strTruthy it.storedFileName = true <;>
    simp [deleteInventory, h, hs]

theorem removeFirst_rest_id_ne {items : List Item} {iid : String} {it : Item}
    {rest : List Item}
    (h : removeFirst (fun i => i.id = iid) items = some (it, rest))
    (hnd : (items.map Item.id).Nodup) : ∀ x ∈ rest, x.id ≠ iid := by
  rcases removeFirst_decomp h with ⟨l1, l2, hl, hrest, hl1, hpit⟩
  have hiid : it.id = iid := by simpa using hpit
  subst hl
  rw [List.map_append, List.map_cons] at hnd
  have hnd' : (it.id :: (l1.map Item.id ++ l2.map Item.id)).Nodup :=
    List.nodup_middle.mp hnd
  have hnotmem : it.id ∉ l1.map Item.id ++ l2.map Item.id :=
    (List.nodup_cons.mp hnd').1
  intro x hx
  rcases List.mem_append.mp (hrest ▸ hx) with h1 | h1
  · have := hl1 x h1
    simpa using this
  · intro hxid
    refine hnotmem (List.mem_append.mpr (Or.inr ?_))
    rw [show it.id = x.id from hiid.trans hxid.symm]
    exact List.mem_map_of_mem Item.id h1

/-- Claim C6: `DELETE /inventory/:id` on a present id removes the item's
photo file (a missing file is no error), removes the item, persists, and
answers 200 `Deleted`; afterwards (with unique ids) the item is gone from
the collection and `GET /inventory/:id` answers 404; an unknown id answers
404 and changes nothing. -/
theorem c6_delete (st : ServerState) (iid : String) :
    (findItem st.items iid = none → deleteInventory st iid = (.text 404 "Not found", st))
  ∧ (∀ it rest, removeFirst (fun i => i.id = iid) st.items = some (it, rest) →
        (deleteInventory st iid).1 = .json 200 (.jobj [("message", .jstr "Deleted")])
      ∧ (deleteInventory st iid).2.items = rest
      ∧ (deleteInventory st iid).2.diskItems = rest
      ∧ (∀ g, it.storedFileName = some g → g ≠ "" →
          existsFile (deleteInventory st iid).2.photos g = false)
      ∧ (strTruthy it.storedFileName = false →
          (deleteInventory st iid).2.photos = st.photos)
      ∧ ((st.items.map Item.id).Nodup →
            (∀ x ∈ rest, x.id ≠ iid)
          ∧ findItem (deleteInventory st iid).2.items iid = none
          ∧ (getInventoryId (deleteInventory st iid).2 iid).1 = .text 404 "Not found")) := by
  constructor
  · intro h
    exact deleteInventory_eq_none (removeFirst_none_iff.mpr h)
  · intro it rest h
    rw [deleteInventory_eq_some h]
    have hrest_ne : (st.items.map Item.id).Nodup → ∀ x ∈ rest, x.id ≠ iid :=
      fun hnd => removeFirst_rest_id_ne h hnd
    refine ⟨rfl, rfl, rfl, ?_, ?_, ?_⟩
    · intro g hg hgne
      rw [show (saveDb { (if strTruthy it.storedFileName = true then
            { st with photos := removeFile st.photos (it.storedFileName.getD "") }
          else st) with items := rest }).photos =
          removeFile st.photos g by
        rw [if_pos (by rw [hg]; exact strTruthy_some_ne hgne), hg]
        rfl]
      exact existsFile_removeFile_self
    · intro hsf
      rw [if_neg (by simp [hsf])]
      rfl
    · intro hnd
      have hne := hrest_ne hnd
      have hfind : findItem rest iid = none := by
        rw [findItem, List.find?_eq_none]
        intro x hx
        simpa using hne x hx
      refine ⟨hne, hfind, ?_⟩
      rw [getInventoryId_eq_none hfind]

/-- Witness for C6 at a concrete state: deleting `item-1` removes it and
its photo file. -/
theorem c6_delete_witness :
    (deleteInventory wState "item-1").1 = .json 200 (.jobj [("message", .jstr "Deleted")])
  ∧ (deleteInventory wState "item-1").2.items = [wItem2]
  ∧ (deleteInventory wState "item-1").2.diskItems = [wItem2]
  ∧ (∀ g, wItem.storedFileName = some g → g ≠ "" →
      existsFile (deleteInventory wState "item-1").2.photos g = false)
  ∧ (strTruthy wItem.storedFileName = false →
      (deleteInventory wState "item-1").2.photos = wState.photos)
  ∧ ((wState.items.map Item.id).Nodup →
        (∀ x ∈ [wItem2], x.id ≠ "item-1")
      ∧ findItem (deleteInventory wState "item-1").2.items "item-1" = none
      ∧ (getInventoryId (deleteInventory wState "item-1").2 "item-1").1 =
          .text 404 "Not found") :=
  (c6_delete wState "item-1").2 wItem [wItem2] rfl

/-- Claim C7: `POST /search` (fields `id`, `has_photo`) and `GET /search`
(params `id`, `includePhoto`) behave identically on the same inputs: 400
when the id is missing, 404 when unknown, otherwise 200 with the same
`{id, name, description}` payload, where the photo reference text is
appended exactly when the flag is truthy and the item has a photo. -/
theorem c7_search_equiv (st : ServerState) (i hp : Option String) :
    searchPost st i hp = searchGet st i hp
  ∧ (strTruthy i = false → (searchPost st i hp).1 = .text 400 "id required")
  ∧ (strTruthy i = true → findItem st.items (i.getD "") = none →
      (searchPost st i hp).1 = .text 404 "Not found")
  ∧ (∀ it, strTruthy i = true → findItem st.items (i.getD "") = some it →
      (searchPost st i hp).1 = .json 200 (.jobj
        [("id", .jstr it.id), ("name", .jstr it.name),
         ("description", .jstr (if strTruthy hp && strTruthy it.photo then
             it.description ++ " Photo: " ++ it.photo.getD ""
           else it.description))])) := by
  refine ⟨rfl, ?_, ?_, ?_⟩
  · intro h
    simp [searchPost, h]
  · intro h hfi
    simp [searchPost, h, hfi]
  · intro it h hfi
    by_cases hb : (strTruthy hp && strTruthy it.photo) = true <;>
      simp [searchPost, h, hfi, hb]

/-- Witness for C7 at a concrete state: searching `item-1` with a truthy
photo flag appends the photo reference text. -/
theorem c7_search_equiv_witness :
    (searchPost wState (some "item-1") (some "1")).1 = .json 200 (.jobj
      [("id", .jstr wItem.id), ("name", .jstr wItem.name),
       ("description", .jstr (if strTruthy (some "1") && strTruthy wItem.photo then
           wItem.description ++ " Photo: " ++ wItem.photo.getD ""
         else wItem.description))]) :=
  (c7_search_equiv wState (some "item-1") (some "1")).2.2.2 wItem rfl rfl

/-! Routing facts: the `allowMethods` 405 branch is unreachable because
Express only routes a request to a registration whose method already
matches, so disallowed methods fall through to the 404 fallback. -/

theorem allowMethods_pass {methods : List String} {m : Method}
    {k : ServerState → Response × ServerState} {st : ServerState}
    (h : methods.contains m.name = true) :
    allowMethods methods m k st = k st := by
  unfold allowMethods
  rw [h, if_pos rfl]

/-- Statement helper: the response is neither a 405 nor carries an `Allow`
header. -/
def plainResp (r : Response) : Prop :=
  r.status ≠ 405 ∧ r.allowHeader = none

theorem plainResp_json (s : Nat) (b : JVal) (h : s ≠ 405) :
    plainResp (.json s b) := ⟨h, rfl⟩

theorem plainResp_text (s : Nat) (b : String) (h : s ≠ 405) :
    plainResp (.text s b) := ⟨h, rfl⟩

theorem plainResp_file (s : Nat) (ct : String) (b : Bytes) (h : s ≠ 405) :
    plainResp (.file s ct b) := ⟨h, rfl⟩

theorem plainResp_static (n : String) : plainResp (.staticFile n) :=
  ⟨by simp [Response.status], rfl⟩

theorem register_plain {st : ServerState} {nm ds : Option String}
    {up : Option Bytes} {nid fn : String} :
    plainResp (register st nm ds up nid fn).1 := by
  by_cases h : strTruthy nm = true
  · rw [register_eq_pos h]
    exact plainResp_json _ _ (by decide)
  · rw [register_eq_neg (by simpa using h)]
    exact plainResp_json _ _ (by decide)

theorem getInventory_plain {st : ServerState} :
    plainResp (getInventory st).1 :=
  plainResp_json _ _ (by decide)

theorem getInventoryId_plain {st : ServerState} {iid : String} :
    plainResp (getInventoryId st iid).1 := by
  cases hfi : findItem st.items iid with
  | none => rw [getInventoryId_eq_none hfi]; exact plainResp_text _ _ (by decide)
  | some it => rw [getInventoryId_eq_some hfi]; exact plainResp_json _ _ (by decide)

theorem putInventoryId_plain {st : ServerState} {iid : String}
    {nm ds : Option String} : plainResp (putInventoryId st iid nm ds).1 := by
  cases hfi : findItem st.items iid with
  | none => rw [putInventoryId_eq_none hfi]; exact plainResp_text _ _ (by decide)
  | some it => rw [putInventoryId_eq_some hfi]; exact plainResp_json _ _ (by decide)

theorem getPhoto_plain {st : ServerState} {iid : String} :
    plainResp (getPhoto st iid).1 := by
  cases hfi : findItem st.items iid with
  | none =>
    rw [show getPhoto st iid = (.text 404 "Not found", st) by simp [getPhoto, hfi]]
    exact plainResp_text _ _ (by decide)
  | some it =>
    by_cases hs : strTruthy it.storedFileName = true
    · cases hr : readFile st.photos (it.storedFileName.getD "") with
      | none =>
        rw [show getPhoto st iid = (.text 404 "Not found", st) by
          simp [getPhoto, hfi, hs, hr]]
        exact plainResp_text _ _ (by decide)
      | some bytes =>
        rw [show getPhoto st iid = (.file 200 "image/jpeg" bytes, st) by
          simp [getPhoto, hfi, hs, hr]]
        exact plainResp_file _ _ _ (by decide)
    · have hs' : strTruthy it.storedFileName = false := by simpa using hs
      rw [show getPhoto st iid = (.text 404 "Not found", st) by
        simp [getPhoto, hfi, hs']]
      exact plainResp_text _ _ (by decide)

theorem putPhoto_plain {st : ServerState} {iid : String} {up : Option Bytes}
    {fn : String} : plainResp (putPhoto st iid up fn).1 := by
  cases hfi : findItem (multerWrite st up fn).1.items iid with
  | none => rw [putPhoto_eq_notFound hfi]; exact plainResp_text _ _ (by decide)
  | some it =>
    cases hm : (multerWrite st up fn).2 with
    | none => rw [putPhoto_eq_noFile hfi hm]; exact plainResp_text _ _ (by decide)
    | some f => rw [putPhoto_eq_ok hfi hm]; exact plainResp_json _ _ (by decide)

theorem deleteInventory_plain {st : ServerState} {iid : String} :
    plainResp (deleteInventory st iid).1 := by
  cases hr : removeFirst (fun i => i.id = iid) st.items with
  | none => rw [deleteInventory_eq_none hr]; exact plainResp_text _ _ (by decide)
  | some p =>
    obtain ⟨it1, rest1⟩ := p
    rw [deleteInventory_eq_some hr]
    exact plainResp_json _ _ (by decide)

theorem searchPost_plain {st : ServerState} {i hp : Option String} :
    plainResp (searchPost st i hp).1 := by
  unfold searchPost
  by_cases h : strTruthy i = true
  · rw [if_pos h]
    cases hfi : findItem st.items (i.getD "") with
    | none => exact plainResp_text _ _ (by decide)
    | some it => exact plainResp_json _ _ (by decide)
  · rw [if_neg h]
    exact plainResp_text _ _ (by decide)

theorem searchGet_plain {st : ServerState} {i hp : Option String} :
    plainResp (searchGet st i hp).1 := by
  unfold searchGet
  by_cases h : strTruthy i = true
  · rw [if_pos h]
    cases hfi : findItem st.items (i.getD "") with
    | none => exact plainResp_text _ _ (by decide)
    | some it => exact plainResp_json _ _ (by decide)
  · rw [if_neg h]
    exact plainResp_text _ _ (by decide)

theorem dispatch_plain (st : ServerState) (req : Request) (nid fn : String) :
    plainResp (dispatch st req nid fn).1 := by
  unfold dispatch
  split
  · exact plainResp_static _
  · exact plainResp_static _
  · rw [allowMethods_pass (by decide)]
    exact register_plain
  · rw [allowMethods_pass (by decide)]
    exact getInventory_plain
  · rw [allowMethods_pass (by decide)]
    exact getInventoryId_plain
  · rw [allowMethods_pass (by decide)]
    exact putInventoryId_plain
  · rw [allowMethods_pass (by decide)]
    exact getPhoto_plain
  · rw [allowMethods_pass (by decide)]
    exact putPhoto_plain
  · rw [allowMethods_pass (by decide)]
    exact deleteInventory_plain
  · rw [allowMethods_pass (by decide)]
    exact searchPost_plain
  · rw [allowMethods_pass (by decide)]
    exact searchGet_plain
  · exact plainResp_text _ _ (by decide)

theorem getPhoto_state {st : ServerState} {iid : String} :
    (getPhoto st iid).2 = st := by
  cases hfi : findItem st.items iid with
  | none => simp [getPhoto, hfi]
  | some it =>
    by_cases hs : strTruthy it.storedFileName = true
    · cases hr : readFile st.photos (it.storedFileName.getD "") with
      | none => simp [getPhoto, hfi, hs, hr]
      | some bytes => simp [getPhoto, hfi, hs, hr]
    · have hs' : strTruthy it.storedFileName = false := by simpa using hs
      simp [getPhoto, hfi, hs']

theorem dispatch_fallback (st : ServerState) (req : Request) (nid fn : String)
    (h : req.method ∉ allowedMethodsFor req.path) :
    dispatch st req nid fn = (.text 404 "Not found", st) := by
  unfold dispatch
  split <;> first
    | rfl
    | (exfalso; simp_all [allowedMethodsFor])

/-- Claim C8 (amended): a request whose method is not among the methods
registered for its path — whether a disallowed method on a known route
path or any request to an unmatched path — is answered by the 404
fallback; no request is ever answered 405 and no `Allow` header is ever
set, because the method-specific route registrations never invoke the
`allowMethods` 405 branch. -/
theorem c8_method_fallback (st : ServerState) (req : Request) (nid fn : String) :
    (req.method ∉ allowedMethodsFor req.path →
      dispatch st req nid fn = (.text 404 "Not found", st))
  ∧ (dispatch st req nid fn).1.status ≠ 405
  ∧ (dispatch st req nid fn).1.allowHeader = none :=
  ⟨dispatch_fallback st req nid fn,
   (dispatch_plain st req nid fn).1, (dispatch_plain st req nid fn).2⟩

/-- Counterexample to C8 as stated: a `GET` on `/register` (whose only
permitted method is `POST`) is answered `404 Not found` with no `Allow`
header, not 405. -/
theorem c8_counterexample :
    (dispatch wState { method := .get, path := ["register"] } "x" "f").1 =
      .text 404 "Not found"
  ∧ (dispatch wState { method := .get, path := ["register"] } "x" "f").1.status ≠ 405
  ∧ (dispatch wState { method := .get, path := ["register"] } "x" "f").1.allowHeader
      = none := by
  refine ⟨rfl, by decide, rfl⟩

/-- Witness for C8 (amended) at a concrete input: a `PUT` on `/search`
falls through to the 404 fallback. -/
theorem c8_method_fallback_witness :
    dispatch wState { method := .put, path := ["search"] } "x" "f" =
      (.text 404 "Not found", wState) :=
  (c8_method_fallback wState { method := .put, path := ["search"] } "x" "f").1
    (by decide)

/-- Claim C9 (code evaluated at the failing input): with an absent DB file
the collection is initialized empty and written out, and an unparseable
non-empty file falls back to the empty collection — but a present, empty
DB file makes `JSON.parse(content || '\x7b\x7d')` succeed with an empty
object, so `db` ends up with no `items` key at all instead of the empty
collection the spec requires. -/
theorem c9_empty_db_file :
    initDb none = (.jobj [("items", .jarr [])], true)
  ∧ (initDb (some "")).1 = .jobj []
  ∧ (initDb (some "")).1.lookup "items" = none
  ∧ (initDb (some "not json")).1 = .jobj [("items", .jarr [])] :=
  ⟨rfl, rfl, rfl, rfl⟩

/-! Orphan-photo preservation: a photo file present in the directory but
referenced by no item stays that way under every request (given that the
freshly generated upload names differ from it). -/

/-- Statement helper: file `f` exists in the photo directory and no item
references it. -/
def orphan (st : ServerState) (f : String) : Prop :=
  existsFile st.photos f = true ∧ ∀ it ∈ st.items, it.storedFileName ≠ some f

theorem existsFile_writeFile_self {dir : PhotoDir} {fn : String} {b : Bytes} :
    existsFile (writeFile dir fn b) fn = true := by
  rw [existsFile_iff]
  exact ⟨(fn, b), List.mem_append.mpr (Or.inr (List.mem_singleton.mpr rfl)), rfl⟩

theorem orphan_multerWrite {st : ServerState} (up : Option Bytes)
    {fn f : String} (hfn : fn ≠ f) (h : orphan st f) :
    orphan (multerWrite st up fn).1 f := by
  cases up with
  | none => exact h
  | some bytes =>
    refine ⟨?_, h.2⟩
    show existsFile (writeFile st.photos fn bytes) f = true
    rw [existsFile_writeFile_ne (fun he => hfn he.symm)]
    exact h.1

theorem orphan_register {st : ServerState} {nm ds : Option String}
    {up : Option Bytes} {nid fn f : String} (hfn : fn ≠ f) (h : orphan st f) :
    orphan (register st nm ds up nid fn).2 f := by
  have hm := orphan_multerWrite up hfn h
  by_cases ht : strTruthy nm = true
  · rw [register_eq_pos ht]
    refine ⟨hm.1, ?_⟩
    intro it hit
    rcases List.mem_append.mp hit with h1 | h1
    · exact hm.2 it h1
    · rw [List.mem_singleton.mp h1]
      cases up with
      | none => simp [registerItem, multerWrite]
      | some bytes => simp [registerItem, multerWrite, hfn]
  · rw [register_eq_neg (by simpa using ht)]
    exact hm

theorem orphan_putInventoryId {st : ServerState} {iid : String}
    {nm ds : Option String} {f : String} (h : orphan st f) :
    orphan (putInventoryId st iid nm ds).2 f := by
  cases hfi : findItem st.items iid with
  | none => rw [putInventoryId_eq_none hfi]; exact h
  | some it =>
    rw [putInventoryId_eq_some hfi]
    refine ⟨h.1, ?_⟩
    intro x hx
    rcases mem_updateFirst hx with h1 | ⟨y, hy, rfl⟩
    · exact h.2 x h1
    · exact h.2 y hy

theorem orphan_putPhoto {st : ServerState} {iid : String} {up : Option Bytes}
    {fn f : String} (hfn : fn ≠ f) (h : orphan st f) :
    orphan (putPhoto st iid up fn).2 f := by
  have hm := orphan_multerWrite up hfn h
  cases hfi : findItem (multerWrite st up fn).1.items iid with
  | none => rw [putPhoto_eq_notFound hfi]; exact hm
  | some it =>
    cases hup : (multerWrite st up fn).2 with
    | none => rw [putPhoto_eq_noFile hfi hup]; exact hm
    | some fup =>
      rw [putPhoto_eq_ok hfi hup]
      have hitmem : it ∈ st.items := by
        rw [← multerWrite_items st up fn]
        exact List.mem_of_find?_eq_some hfi
      have hstored : it.storedFileName ≠ some f := h.2 it hitmem
      have hmid : orphan (if strTruthy it.storedFileName = true then
          { (multerWrite st up fn).1 with
            photos := removeFile (multerWrite st up fn).1.photos
              (it.storedFileName.getD "") }
        else (multerWrite st up fn).1) f := by
        by_cases hs : strTruthy it.storedFileName = true
        · rw [if_pos hs]
          cases hsf : it.storedFileName with
          | none => rw [hsf] at hs; exact absurd hs (by simp [strTruthy])
          | some g =>
            have hgf : f ≠ g := by
              intro he
              exact hstored (by rw [hsf, he])
            refine ⟨?_, hm.2⟩
            show existsFile (removeFile (multerWrite st up fn).1.photos
              ((some g).getD "")) f = true
            rw [show ((some g).getD "") = g from rfl, existsFile_removeFile_ne hgf]
            exact hm.1
        · rw [if_neg hs]
          exact hm
      refine ⟨hmid.1, ?_⟩
      intro x hx
      rcases mem_updateFirst hx with h1 | ⟨y, hy, rfl⟩
      · exact hm.2 x h1
      · simp [photoUpdate, hfn]

theorem orphan_deleteInventory {st : ServerState} {iid : String} {f : String}
    (h : orphan st f) : orphan (deleteInventory st iid).2 f := by
  cases hr : removeFirst (fun i => i.id = iid) st.items with
  | none => rw [deleteInventory_eq_none hr]; exact h
  | some p =>
    obtain ⟨it1, rest1⟩ := p
    rw [deleteInventory_eq_some hr]
    have hmem := (removeFirst_mem hr).1
    have hstored : it1.storedFileName ≠ some f := h.2 it1 hmem
    have hrest := removeFirst_rest_sub hr
    refine ⟨?_, fun x hx => h.2 x (hrest x hx)⟩
    by_cases hs : strTruthy it1.storedFileName = true
    · rw [if_pos hs]
      cases hsf : it1.storedFileName with
      | none => rw [hsf] at hs; exact absurd hs (by simp [strTruthy])
      | some g =>
        have hgf : f ≠ g := by
          intro he
          exact hstored (by rw [hsf, he])
        show existsFile (removeFile st.photos ((some g).getD "")) f = true
        rw [show ((some g).getD "") = g from rfl, existsFile_removeFile_ne hgf]
        exact h.1
    · rw [if_neg hs]
      exact h.1

theorem orphan_dispatch {st : ServerState} {req : Request} {nid fn f : String}
    (hfn : fn ≠ f) (h : orphan st f) : orphan (dispatch st req nid fn).2 f := by
  unfold dispatch
  split
  · exact h
  · exact h
  · rw [allowMethods_pass (by decide)]
    exact orphan_register hfn h
  · rw [allowMethods_pass (by decide)]
    exact h
  · rw [allowMethods_pass (by decide)]
    cases hfi : findItem st.items _ with
    | none => rw [getInventoryId_eq_none hfi]; exact h
    | some it => rw [getInventoryId_eq_some hfi]; exact h
  · rw [allowMethods_pass (by decide)]
    exact orphan_putInventoryId h
  · rw [allowMethods_pass (by decide), getPhoto_state]
    exact h
  · rw [allowMethods_pass (by decide)]
    exact orphan_putPhoto hfn h
  · rw [allowMethods_pass (by decide)]
    exact orphan_deleteInventory h
  · rw [allowMethods_pass (by decide)]
    unfold searchPost
    split
    · cases hfi : findItem st.items _ with
      | none => simp only [hfi]; exact h
      | some it => simp only [hfi]; exact h
    · exact h
  · rw [allowMethods_pass (by decide)]
    unfold searchGet
    split
    · cases hfi : findItem st.items _ with
      | none => simp only [hfi]; exact h
      | some it => simp only [hfi]; exact h
    · exact h
  · exact h

theorem orphan_runRequests {st : ServerState} {f : String}
    (reqs : List (Request × String × String))
    (hfr : ∀ x ∈ reqs, x.2.2 ≠ f) (h : orphan st f) :
    orphan (runRequests st reqs) f := by
  induction reqs generalizing st with
  | nil => exact h
  | cons r rest ih =>
    exact ih (fun x hx => hfr x (List.mem_cons_of_mem _ hx))
      (orphan_dispatch (hfr r (List.mem_cons_self _ _)) h)

/-- Claim C10: `POST /register` with an uploaded photo but an empty/absent
`inventory_name` answers 400 and leaves the collection (memory and disk)
unchanged, yet the uploaded file has already been written by the multer
middleware and is referenced by no item; no later request ever removes such
an orphan file. -/
theorem c10_orphan_photo (st : ServerState) (nm ds : Option String)
    (bytes : Bytes) (nid fn : String)
    (hnm : strTruthy nm = false)
    (href : ∀ it ∈ st.items, it.storedFileName ≠ some fn) :
    (register st nm ds (some bytes) nid fn).1.status = 400
  ∧ (register st nm ds (some bytes) nid fn).2.items = st.items
  ∧ (register st nm ds (some bytes) nid fn).2.diskItems = st.diskItems
  ∧ readFile (register st nm ds (some bytes) nid fn).2.photos fn = some bytes
  ∧ orphan (register st nm ds (some bytes) nid fn).2 fn
  ∧ (∀ reqs : List (Request × String × String), (∀ x ∈ reqs, x.2.2 ≠ fn) →
      orphan (runRequests (register st nm ds (some bytes) nid fn).2 reqs) fn) := by
  rw [register_eq_neg hnm]
  have horph : orphan (multerWrite st (some bytes) fn).1 fn := by
    refine ⟨?_, ?_⟩
    · rw [show (multerWrite st (some bytes) fn).1.photos =
        writeFile st.photos fn bytes from rfl]
      exact existsFile_writeFile_self
    · rw [multerWrite_items]
      exact href
  refine ⟨rfl, multerWrite_items st (some bytes) fn,
    multerWrite_diskItems st (some bytes) fn, ?_, horph, ?_⟩
  · rw [show (multerWrite st (some bytes) fn).1.photos =
      writeFile st.photos fn bytes from rfl]
    exact readFile_writeFile_self
  · intro reqs hfr
    exact orphan_runRequests reqs hfr horph

/-- Witness for C10 at a concrete state: a nameless register request with
an upload leaves the new file `g.jpg` orphaned. -/
theorem c10_orphan_photo_witness :
    (register wState none none (some [5]) "x" "g.jpg").1.status = 400
  ∧ (register wState none none (some [5]) "x" "g.jpg").2.items = wState.items
  ∧ (register wState none none (some [5]) "x" "g.jpg").2.diskItems = wState.diskItems
  ∧ readFile (register wState none none (some [5]) "x" "g.jpg").2.photos "g.jpg" =
      some [5]
  ∧ orphan (register wState none none (some [5]) "x" "g.jpg").2 "g.jpg" :=
  have h := c10_orphan_photo wState none none [5] "x" "g.jpg" rfl (by decide)
  ⟨h.1, h.2.1, h.2.2.1, h.2.2.2.1, h.2.2.2.2.1⟩

end Inventory

